import Mathlib

/-!
Verification of the overflower arithmetic crates (overflower_support and
overflower).

The repository implements, for each fixed-width integer kind, three overflow
policies (Wrap, Panic, Saturate) for the operations add, sub, mul, div, rem,
shl, shr, neg, abs and the sum reduction.  We embed the per-kind semantics of
support/src/lib.rs shallowly:

* an unsigned kind of width `w` is modelled by naturals `< 2 ^ w`;
* a signed kind of width `w` is modelled by integers in
  `[-(2 ^ (w-1)), 2 ^ (w-1) - 1]`;
* a panicking computation is modelled by `Option` (`none` = run-time panic);
* the Rust shift right-hand operand is modelled by a natural number (the
  value of the unsigned right-hand type); the `as u32` cast of the source is
  the truncation `castU32`, and the `as usize` cast is the identity on these
  values (64-bit target, as in the source's cfg for a 64-bit pointer width).

Rust primitive semantics used by the source and mirrored here:
`wrapping_add`/`sub`/`mul` reduce modulo `2 ^ w`; `wrapping_div`/`rem`
delegate to native division (which panics on a zero divisor) and wrap the
single overflowing quotient `MIN / -1`; `checked_*` return `None` exactly
when the native operation is undefined; `wrapping_shl`/`shr` mask the shift
count modulo the width; `checked_shr` is `None` for counts `≥` width; native
`/` and `%` on signed values truncate toward zero (`Int.tdiv`, `Int.tmod`);
native `>>` on signed values is an arithmetic shift (`Int.fdiv` by a power
of two).
-/

namespace Overflower

/-- Largest value of an unsigned kind of width `w` (the source's per-kind MAX). -/
def uMax (w : Nat) : Nat := 2 ^ w - 1

/-- Smallest value of a signed kind of width `w` (the source's per-kind MIN). -/
def sMin (w : Nat) : Int := -(2 ^ (w - 1))

/-- Largest value of a signed kind of width `w` (the source's per-kind MAX). -/
def sMax (w : Nat) : Int := 2 ^ (w - 1) - 1

/-- Reduce an integer into the signed range of width `w` by two's-complement
wraparound; this is the semantics of the Rust `wrapping_*` primitives on a
signed `w`-bit kind. -/
def intWrap (w : Nat) (z : Int) : Int := (z + 2 ^ (w - 1)) % 2 ^ w - 2 ^ (w - 1)

/-- The `as u32` cast of the source on an unsigned shift amount. -/
def castU32 (r : Nat) : Nat := r % 2 ^ 32

/-- Arithmetic right shift on a signed value: the semantics of native `>>`
on a signed kind (floor division by a power of two). -/
def sar (x : Int) (r : Nat) : Int := Int.fdiv x (2 ^ r)

/-! ### Unsigned binary arithmetic (support/src/lib.rs, wrap_biself,
panic_biself, saturate_biself, saturate_unsigned macros) -/

/-- AddWrap for an unsigned kind: `self.wrapping_add(rhs)`. -/
def addWrapU (w a b : Nat) : Nat := (a + b) % 2 ^ w

/-- SubWrap for an unsigned kind: `self.wrapping_sub(rhs)`. -/
def subWrapU (w a b : Nat) : Nat := (a + 2 ^ w - b) % 2 ^ w

/-- MulWrap for an unsigned kind: `self.wrapping_mul(rhs)`. -/
def mulWrapU (w a b : Nat) : Nat := a * b % 2 ^ w

/-- DivWrap for an unsigned kind: `self.wrapping_div(rhs)`; the primitive
panics when `rhs` is zero. -/
def divWrapU (a b : Nat) : Option Nat := if b = 0 then none else some (a / b)

/-- RemWrap for an unsigned kind: `self.wrapping_rem(rhs)`; the primitive
panics when `rhs` is zero. -/
def remWrapU (a b : Nat) : Option Nat := if b = 0 then none else some (a % b)

/-- AddPanic for an unsigned kind: `checked_add` then panic on `None`. -/
def addPanicU (w a b : Nat) : Option Nat :=
  if a + b < 2 ^ w then some (a + b) else none

/-- SubPanic for an unsigned kind: `checked_sub` then panic on `None`. -/
def subPanicU (a b : Nat) : Option Nat := if b ≤ a then some (a - b) else none

/-- MulPanic for an unsigned kind: `checked_mul` then panic on `None`. -/
def mulPanicU (w a b : Nat) : Option Nat :=
  if a * b < 2 ^ w then some (a * b) else none

/-- DivPanic for an unsigned kind: `checked_div` then panic on `None`. -/
def divPanicU (a b : Nat) : Option Nat := if b = 0 then none else some (a / b)

/-- RemPanic for an unsigned kind: `checked_rem` then panic on `None`. -/
def remPanicU (a b : Nat) : Option Nat := if b = 0 then none else some (a % b)

/-- AddSaturate for an unsigned kind: `saturating_add`. -/
def addSatU (w a b : Nat) : Nat := min (a + b) (uMax w)

/-- SubSaturate for an unsigned kind: `saturating_sub` (clamps at zero,
which is exactly truncated subtraction on naturals). -/
def subSatU (a b : Nat) : Nat := a - b

/-- MulSaturate for an unsigned kind: `saturating_mul`. -/
def mulSatU (w a b : Nat) : Nat := min (a * b) (uMax w)

/-- DivSaturate for an unsigned kind (saturate_unsigned macro). -/
def divSatU (w a b : Nat) : Nat :=
  if b = 0 then (if a = 0 then 0 else uMax w) else a / b

/-- RemSaturate for an unsigned kind (saturate_unsigned macro). -/
def remSatU (w a b : Nat) : Nat :=
  if b = 0 then (if a = 0 then 0 else uMax w) else a % b

/-! ### Signed binary arithmetic (wrap_biself, panic_biself,
saturate_biself, saturate_signed macros) -/

/-- AddWrap for a signed kind: `self.wrapping_add(rhs)`. -/
def addWrapS (w : Nat) (a b : Int) : Int := intWrap w (a + b)

/-- SubWrap for a signed kind: `self.wrapping_sub(rhs)`. -/
def subWrapS (w : Nat) (a b : Int) : Int := intWrap w (a - b)

/-- MulWrap for a signed kind: `self.wrapping_mul(rhs)`. -/
def mulWrapS (w : Nat) (a b : Int) : Int := intWrap w (a * b)

/-- DivWrap for a signed kind: `self.wrapping_div(rhs)`; the primitive
panics on a zero divisor and wraps the overflowing quotient `MIN / -1`. -/
def divWrapS (w : Nat) (a b : Int) : Option Int :=
  if b = 0 then none else some (intWrap w (Int.tdiv a b))

/-- RemWrap for a signed kind: `self.wrapping_rem(rhs)`; the primitive
panics on a zero divisor (`MIN % -1` is zero, which `Int.tmod` delivers). -/
def remWrapS (_w : Nat) (a b : Int) : Option Int :=
  if b = 0 then none else some (Int.tmod a b)

/-- AddPanic for a signed kind: `checked_add` then panic on `None`. -/
def addPanicS (w : Nat) (a b : Int) : Option Int :=
  if sMin w ≤ a + b ∧ a + b ≤ sMax w then some (a + b) else none

/-- SubPanic for a signed kind: `checked_sub` then panic on `None`. -/
def subPanicS (w : Nat) (a b : Int) : Option Int :=
  if sMin w ≤ a - b ∧ a - b ≤ sMax w then some (a - b) else none

/-- MulPanic for a signed kind: `checked_mul` then panic on `None`. -/
def mulPanicS (w : Nat) (a b : Int) : Option Int :=
  if sMin w ≤ a * b ∧ a * b ≤ sMax w then some (a * b) else none

/-- DivPanic for a signed kind: `checked_div` then panic on `None`. -/
def divPanicS (w : Nat) (a b : Int) : Option Int :=
  if b = 0 ∨ (a = sMin w ∧ b = -1) then none else some (Int.tdiv a b)

/-- RemPanic for a signed kind: `checked_rem` then panic on `None`. -/
def remPanicS (w : Nat) (a b : Int) : Option Int :=
  if b = 0 ∨ (a = sMin w ∧ b = -1) then none else some (Int.tmod a b)

/-- Clamp an integer into the signed range of width `w`. -/
def clampS (w : Nat) (z : Int) : Int := max (sMin w) (min (sMax w) z)

/-- AddSaturate for a signed kind: `saturating_add`. -/
def addSatS (w : Nat) (a b : Int) : Int := clampS w (a + b)

/-- SubSaturate for a signed kind: `saturating_sub`. -/
def subSatS (w : Nat) (a b : Int) : Int := clampS w (a - b)

/-- MulSaturate for a signed kind: `saturating_mul`. -/
def mulSatS (w : Nat) (a b : Int) : Int := clampS w (a * b)

/-- DivSaturate for a signed kind (saturate_signed macro): a zero divisor
maps a positive dividend to MAX, zero to zero, negative to MIN; a divisor of
`-1` negates, sending MIN to MAX; otherwise native division. -/
def divSatS (w : Nat) (a b : Int) : Int :=
  if b = 0 then (if 0 < a then sMax w else if a = 0 then 0 else sMin w)
  else if b = -1 then (if a = sMin w then sMax w else -a)
  else Int.tdiv a b

/-- RemSaturate for a signed kind (saturate_signed macro): a zero divisor
maps zero to zero and everything else to MAX; otherwise the native `%`,
which panics on the overflowing pair `(MIN, -1)`. -/
def remSatS (w : Nat) (a b : Int) : Option Int :=
  if b = 0 then some (if a = 0 then 0 else sMax w)
  else if a = sMin w ∧ b = -1 then none
  else some (Int.tmod a b)

/-! ### Negation (neg_panic, neg_wrap, neg_saturate macros; signed only) -/

/-- NegWrap for a signed kind: `self.wrapping_neg()`. -/
def negWrapS (w : Nat) (a : Int) : Int := intWrap w (-a)

/-- NegPanic for a signed kind: `checked_neg` then panic on `None`. -/
def negPanicS (w : Nat) (a : Int) : Option Int :=
  if a = sMin w then none else some (-a)

/-- NegSaturate for a signed kind (neg_saturate macro). -/
def negSatS (w : Nat) (a : Int) : Int := if a = sMin w then sMax w else -a

/-! ### Absolute value (abs_unsigned, abs_signed macros) -/

/-- AbsWrap for an unsigned kind (abs_unsigned macro): the identity. -/
def absWrapU (a : Nat) : Nat := a

/-- AbsSaturate for an unsigned kind (abs_unsigned macro): the identity. -/
def absSatU (a : Nat) : Nat := a

/-- AbsWrap for a signed kind (abs_signed macro): `0.sub_wrap(self)` for a
negative value, the identity otherwise. -/
def absWrapS (w : Nat) (a : Int) : Int := if a < 0 then subWrapS w 0 a else a

/-- AbsSaturate for a signed kind (abs_signed macro): `0.sub_saturate(self)`
for a negative value, the identity otherwise. -/
def absSatS (w : Nat) (a : Int) : Int := if a < 0 then subSatS w 0 a else a

/-! ### The five same-type binary operations bundled, and the native
(spec-side) reference semantics for them -/

/-- The five binary operations that share the operand type on both sides. -/
inductive Op
  | add
  | sub
  | mul
  | div
  | rem
deriving DecidableEq

/-- Wrap-policy entry points of the unsigned Semantics Table. -/
def wrapOpU : Op → Nat → Nat → Nat → Option Nat
  | .add, w, a, b => some (addWrapU w a b)
  | .sub, w, a, b => some (subWrapU w a b)
  | .mul, w, a, b => some (mulWrapU w a b)
  | .div, _, a, b => divWrapU a b
  | .rem, _, a, b => remWrapU a b

/-- Panic-policy entry points of the unsigned Semantics Table. -/
def panicOpU : Op → Nat → Nat → Nat → Option Nat
  | .add, w, a, b => addPanicU w a b
  | .sub, _, a, b => subPanicU a b
  | .mul, w, a, b => mulPanicU w a b
  | .div, _, a, b => divPanicU a b
  | .rem, _, a, b => remPanicU a b

/-- Saturate-policy entry points of the unsigned Semantics Table. -/
def satOpU : Op → Nat → Nat → Nat → Option Nat
  | .add, w, a, b => some (addSatU w a b)
  | .sub, _, a, b => some (subSatU a b)
  | .mul, w, a, b => some (mulSatU w a b)
  | .div, w, a, b => some (divSatU w a b)
  | .rem, w, a, b => some (remSatU w a b)

/-- Wrap-policy entry points of the signed Semantics Table. -/
def wrapOpS : Op → Nat → Int → Int → Option Int
  | .add, w, a, b => some (addWrapS w a b)
  | .sub, w, a, b => some (subWrapS w a b)
  | .mul, w, a, b => some (mulWrapS w a b)
  | .div, w, a, b => divWrapS w a b
  | .rem, w, a, b => remWrapS w a b

/-- Panic-policy entry points of the signed Semantics Table. -/
def panicOpS : Op → Nat → Int → Int → Option Int
  | .add, w, a, b => addPanicS w a b
  | .sub, w, a, b => subPanicS w a b
  | .mul, w, a, b => mulPanicS w a b
  | .div, w, a, b => divPanicS w a b
  | .rem, w, a, b => remPanicS w a b

/-- Saturate-policy entry points of the signed Semantics Table. -/
def satOpS : Op → Nat → Int → Int → Option Int
  | .add, w, a, b => some (addSatS w a b)
  | .sub, w, a, b => some (subSatS w a b)
  | .mul, w, a, b => some (mulSatS w a b)
  | .div, w, a, b => some (divSatS w a b)
  | .rem, w, a, b => remSatS w a b

/-- Modelled from the spec: the defined result of the native operator on an
unsigned kind (`none` when the native operation has no defined result, i.e.
on overflow or a zero divisor). -/
def nativeOpU : Op → Nat → Nat → Nat → Option Nat
  | .add, w, a, b => if a + b < 2 ^ w then some (a + b) else none
  | .sub, _, a, b => if b ≤ a then some (a - b) else none
  | .mul, w, a, b => if a * b < 2 ^ w then some (a * b) else none
  | .div, _, a, b => if b = 0 then none else some (a / b)
  | .rem, _, a, b => if b = 0 then none else some (a % b)

/-- Modelled from the spec: the defined result of the native operator on a
signed kind (`none` on overflow, a zero divisor, or the division-overflow
pair `(MIN, -1)`, for which native `/` and `%` are undefined). -/
def nativeOpS : Op → Nat → Int → Int → Option Int
  | .add, w, a, b => if sMin w ≤ a + b ∧ a + b ≤ sMax w then some (a + b) else none
  | .sub, w, a, b => if sMin w ≤ a - b ∧ a - b ≤ sMax w then some (a - b) else none
  | .mul, w, a, b => if sMin w ≤ a * b ∧ a * b ≤ sMax w then some (a * b) else none
  | .div, w, a, b => if b = 0 ∨ (a = sMin w ∧ b = -1) then none else some (Int.tdiv a b)
  | .rem, w, a, b => if b = 0 ∨ (a = sMin w ∧ b = -1) then none else some (Int.tmod a b)

/-! ### Shifts (panic_shifts, wrap_shifts, saturate_shl_unsigned,
saturate_shl_signed macros).  The left operand is a value of the kind; the
right operand is the value of the (unsigned) right-hand type, a natural
number.  Unsigned kinds are instantiated with a bits constant equal to
their width; signed kinds with the per-kind constants of the source
(7, 15, 31, 64 and ISIZE_BITS = 63 on the 64-bit target). -/

/-- ShrWrap for an unsigned kind: `self.wrapping_shr(rhs as u32)`, which
masks the count modulo the width. -/
def shrWrapU (w x r : Nat) : Nat := x / 2 ^ (castU32 r % w)

/-- ShrPanic for an unsigned kind: `self.checked_shr(rhs as u32)` then
panic on `None`. -/
def shrPanicU (w x r : Nat) : Option Nat :=
  if castU32 r < w then some (x / 2 ^ castU32 r) else none

/-- ShrSaturate for an unsigned kind (saturate_shl_unsigned macro): zero
when `rhs as usize` reaches the bits constant, the native shift below it. -/
def shrSatU (w x r : Nat) : Nat := if w ≤ r then 0 else x / 2 ^ r

/-- ShrAssignSaturate for an unsigned kind (saturate_shl_unsigned macro):
`self.checked_shr(rhs as u32).unwrap_or(0)`. -/
def shrAssignSatU (w x r : Nat) : Nat :=
  if castU32 r < w then x / 2 ^ castU32 r else 0

/-- ShlWrap for an unsigned kind: `self.wrapping_shl(rhs as u32)`. -/
def shlWrapU (w x r : Nat) : Nat := x * 2 ^ (castU32 r % w) % 2 ^ w

/-- ShlPanic for an unsigned kind (saturate_shl_unsigned macro): zero is
returned unchanged; otherwise panic when the count reaches the bits
constant or the shift would drop a set bit. -/
def shlPanicU (w x r : Nat) : Option Nat :=
  if x = 0 then some 0
  else if w ≤ r ∨ uMax w / 2 ^ r < x then none
  else some (x * 2 ^ r % 2 ^ w)

/-- ShlSaturate for an unsigned kind (saturate_shl_unsigned macro). -/
def shlSatU (w x r : Nat) : Nat :=
  if x = 0 then 0
  else if w ≤ r ∨ uMax w / 2 ^ r < x then uMax w
  else x * 2 ^ r % 2 ^ w

/-- ShrWrap for a signed kind: `self.wrapping_shr(rhs as u32)`. -/
def shrWrapS (w : Nat) (x : Int) (r : Nat) : Int := sar x (castU32 r % w)

/-- ShrPanic for a signed kind: `self.checked_shr(rhs as u32)` then panic
on `None`. -/
def shrPanicS (w : Nat) (x : Int) (r : Nat) : Option Int :=
  if castU32 r < w then some (sar x (castU32 r)) else none

/-- ShrSaturate for a signed kind (saturate_shl_signed macro): zero when
`rhs as usize` reaches the kind's bits constant, the native arithmetic
shift below it. -/
def shrSatS (bits : Nat) (x : Int) (r : Nat) : Int :=
  if bits ≤ r then 0 else sar x r

/-- ShrAssignSaturate for a signed kind (saturate_shl_signed macro):
`self.checked_shr(rhs as u32).unwrap_or(0)`. -/
def shrAssignSatS (w : Nat) (x : Int) (r : Nat) : Int :=
  if castU32 r < w then sar x (castU32 r) else 0

/-- ShlWrap for a signed kind: `self.wrapping_shl(rhs as u32)`. -/
def shlWrapS (w : Nat) (x : Int) (r : Nat) : Int :=
  intWrap w (x * 2 ^ (castU32 r % w))

/-- ShlPanic for a signed kind (saturate_shl_signed macro). -/
def shlPanicS (w bits : Nat) (x : Int) (r : Nat) : Option Int :=
  if x = 0 then some 0
  else if 0 < x then
    (if bits ≤ r ∨ sar (sMax w) r < x then none else some (intWrap w (x * 2 ^ r)))
  else
    (if bits ≤ r ∨ x < sar (sMin w) r then none else some (intWrap w (x * 2 ^ r)))

/-- ShlSaturate for a signed kind (saturate_shl_signed macro). -/
def shlSatS (w bits : Nat) (x : Int) (r : Nat) : Int :=
  if x = 0 then 0
  else if 0 < x then
    (if bits ≤ r ∨ sar (sMax w) r < x then sMax w else intWrap w (x * 2 ^ r))
  else
    (if bits ≤ r ∨ x < sar (sMin w) r then sMin w else intWrap w (x * 2 ^ r))

/-! ### The ten fixed-width integer kinds and their per-kind constants -/

/-- The five unsigned kinds (pointer width 64, per the source's cfg). -/
inductive UKind
  | u8
  | u16
  | u32
  | u64
  | usize
deriving DecidableEq

/-- Bit width of an unsigned kind. -/
def uwidth : UKind → Nat
  | .u8 => 8
  | .u16 => 16
  | .u32 => 32
  | .u64 => 64
  | .usize => 64

/-- The five signed kinds (pointer width 64, per the source's cfg). -/
inductive SKind
  | i8
  | i16
  | i32
  | i64
  | isize
deriving DecidableEq

/-- Bit width of a signed kind. -/
def swidth : SKind → Nat
  | .i8 => 8
  | .i16 => 16
  | .i32 => 32
  | .i64 => 64
  | .isize => 64

/-- The bits constant the saturate_shl_signed macro is instantiated with for
each signed kind: 7, 15 and 31 for i8, i16 and i32, but 64 for i64 and
ISIZE_BITS = 63 for isize. -/
def sbits : SKind → Nat
  | .i8 => 7
  | .i16 => 15
  | .i32 => 31
  | .i64 => 64
  | .isize => 63

/-- ShrWrap at an unsigned kind. -/
def shrWrapUK (k : UKind) (x r : Nat) : Nat := shrWrapU (uwidth k) x r

/-- ShrPanic at an unsigned kind. -/
def shrPanicUK (k : UKind) (x r : Nat) : Option Nat := shrPanicU (uwidth k) x r

/-- ShrSaturate at an unsigned kind (its bits constant is its width). -/
def shrSatUK (k : UKind) (x r : Nat) : Nat := shrSatU (uwidth k) x r

/-- ShrAssignSaturate at an unsigned kind. -/
def shrAssignSatUK (k : UKind) (x r : Nat) : Nat := shrAssignSatU (uwidth k) x r

/-- ShrWrap at a signed kind. -/
def shrWrapSK (k : SKind) (x : Int) (r : Nat) : Int := shrWrapS (swidth k) x r

/-- ShrPanic at a signed kind. -/
def shrPanicSK (k : SKind) (x : Int) (r : Nat) : Option Int :=
  shrPanicS (swidth k) x r

/-- ShrSaturate at a signed kind, instantiated with its bits constant. -/
def shrSatSK (k : SKind) (x : Int) (r : Nat) : Int := shrSatS (sbits k) x r

/-- ShrAssignSaturate at a signed kind (checked_shr uses the true width). -/
def shrAssignSatSK (k : SKind) (x : Int) (r : Nat) : Int :=
  shrAssignSatS (swidth k) x r

/-! ### In-place (assign) variants.  Each Rust assign impl recomputes the
value exactly as its value-returning sibling and stores it back; the model
returns the stored value (`Option` when the computation can panic). -/

/-- The wrap_assign_biself macro: `*self = self.wrapping_op(rhs)` for the
five binary operations, unsigned kinds. -/
def wrapAssignOpU : Op → Nat → Nat → Nat → Option Nat
  | .add, w, a, b => some ((a + b) % 2 ^ w)
  | .sub, w, a, b => some ((a + 2 ^ w - b) % 2 ^ w)
  | .mul, w, a, b => some (a * b % 2 ^ w)
  | .div, _, a, b => if b = 0 then none else some (a / b)
  | .rem, _, a, b => if b = 0 then none else some (a % b)

/-- The panic_assign_biself macro: `*self = self.checked_op(rhs)` or panic,
for the five binary operations, unsigned kinds. -/
def panicAssignOpU : Op → Nat → Nat → Nat → Option Nat
  | .add, w, a, b => if a + b < 2 ^ w then some (a + b) else none
  | .sub, _, a, b => if b ≤ a then some (a - b) else none
  | .mul, w, a, b => if a * b < 2 ^ w then some (a * b) else none
  | .div, _, a, b => if b = 0 then none else some (a / b)
  | .rem, _, a, b => if b = 0 then none else some (a % b)

/-- The wrap_assign_biself macro for the signed kinds. -/
def wrapAssignOpS : Op → Nat → Int → Int → Option Int
  | .add, w, a, b => some (intWrap w (a + b))
  | .sub, w, a, b => some (intWrap w (a - b))
  | .mul, w, a, b => some (intWrap w (a * b))
  | .div, w, a, b => if b = 0 then none else some (intWrap w (Int.tdiv a b))
  | .rem, _, a, b => if b = 0 then none else some (Int.tmod a b)

/-- The panic_assign_biself macro for the signed kinds. -/
def panicAssignOpS : Op → Nat → Int → Int → Option Int
  | .add, w, a, b => if sMin w ≤ a + b ∧ a + b ≤ sMax w then some (a + b) else none
  | .sub, w, a, b => if sMin w ≤ a - b ∧ a - b ≤ sMax w then some (a - b) else none
  | .mul, w, a, b => if sMin w ≤ a * b ∧ a * b ≤ sMax w then some (a * b) else none
  | .div, w, a, b => if b = 0 ∨ (a = sMin w ∧ b = -1) then none else some (Int.tdiv a b)
  | .rem, w, a, b => if b = 0 ∨ (a = sMin w ∧ b = -1) then none else some (Int.tmod a b)

/-- ShlAssignWrap for an unsigned kind: `*self = self.wrapping_shl(rhs as u32)`. -/
def shlAssignWrapU (w x r : Nat) : Nat := x * 2 ^ (castU32 r % w) % 2 ^ w

/-- ShrAssignWrap for an unsigned kind: `*self = self.wrapping_shr(rhs as u32)`. -/
def shrAssignWrapU (w x r : Nat) : Nat := x / 2 ^ (castU32 r % w)

/-- ShrAssignPanic for an unsigned kind: `*self = self.checked_shr(rhs as u32)`
or panic. -/
def shrAssignPanicU (w x r : Nat) : Option Nat :=
  if castU32 r < w then some (x / 2 ^ castU32 r) else none

/-- ShlAssignPanic for an unsigned kind (saturate_shl_unsigned macro): a
zero value returns early, else panic on a lost bit, else the shift. -/
def shlAssignPanicU (w x r : Nat) : Option Nat :=
  if x = 0 then some x
  else if w ≤ r ∨ uMax w / 2 ^ r < x then none
  else some (x * 2 ^ r % 2 ^ w)

/-- ShlAssignSaturate for an unsigned kind (saturate_shl_unsigned macro). -/
def shlAssignSatU (w x r : Nat) : Nat :=
  if x = 0 then x
  else if w ≤ r ∨ uMax w / 2 ^ r < x then uMax w
  else x * 2 ^ r % 2 ^ w

/-- ShlAssignWrap for a signed kind. -/
def shlAssignWrapS (w : Nat) (x : Int) (r : Nat) : Int :=
  intWrap w (x * 2 ^ (castU32 r % w))

/-- ShrAssignWrap for a signed kind. -/
def shrAssignWrapS (w : Nat) (x : Int) (r : Nat) : Int := sar x (castU32 r % w)

/-- ShrAssignPanic for a signed kind. -/
def shrAssignPanicS (w : Nat) (x : Int) (r : Nat) : Option Int :=
  if castU32 r < w then some (sar x (castU32 r)) else none

/-- ShlAssignPanic for a signed kind (saturate_shl_signed macro). -/
def shlAssignPanicS (w bits : Nat) (x : Int) (r : Nat) : Option Int :=
  if x = 0 then some x
  else if 0 < x then
    (if bits ≤ r ∨ sar (sMax w) r < x then none else some (intWrap w (x * 2 ^ r)))
  else
    (if bits ≤ r ∨ x < sar (sMin w) r then none else some (intWrap w (x * 2 ^ r)))

/-- ShlAssignSaturate for a signed kind (saturate_shl_signed macro). -/
def shlAssignSatS (w bits : Nat) (x : Int) (r : Nat) : Int :=
  if x = 0 then 0
  else if 0 < x then
    (if bits ≤ r ∨ sar (sMax w) r < x then sMax w else intWrap w (x * 2 ^ r))
  else
    (if bits ≤ r ∨ x < sar (sMin w) r then sMin w else intWrap w (x * 2 ^ r))

/-! ### Sum reduction -/

/-- Modelled from the spec: the iterator sum wiring of the overflower crate
(its `ops` module is not under `src/`); per the spec the Panic-policy sum
folds the Panic policy's binary add over the sequence starting from the
additive identity 0, aborting at the first failing element.  The binary add
`addPanicU` is the source's checked add.  Unsigned kinds. -/
def sumPanicAuxU (w acc : Nat) : List Nat → Option Nat
  | [] => some acc
  | x :: xs =>
    match addPanicU w acc x with
    | none => none
    | some s => sumPanicAuxU w s xs

/-- Modelled from the spec: the Panic-policy sum entry point for an
unsigned kind, starting from 0. -/
def sumPanicU (w : Nat) (l : List Nat) : Option Nat := sumPanicAuxU w 0 l

/-- Modelled from the spec: the Panic-policy sum fold for a signed kind. -/
def sumPanicAuxS (w : Nat) (acc : Int) : List Int → Option Int
  | [] => some acc
  | x :: xs =>
    match addPanicS w acc x with
    | none => none
    | some s => sumPanicAuxS w s xs

/-- Modelled from the spec: the Panic-policy sum entry point for a signed
kind, starting from 0. -/
def sumPanicS (w : Nat) (l : List Int) : Option Int := sumPanicAuxS w 0 l

/-! ### The declared reduction surface of the overflower crate -/

/-- The three overflow policies. -/
inductive Policy
  | wrap
  | saturate
  | panicking
deriving DecidableEq

/-- The policies for which the public `OverflowerSum` trait declares a sum
entry point (overflower/src/lib.rs lines 29-38 declare `sum_wrap`,
`sum_panic` and `sum_saturate`). -/
def overflowerSumTraitPolicies : List Policy := [.wrap, .panicking, .saturate]

/-- The policies the sum tag-level wiring forwards (the two `op!(tagiterimpl
...)` invocations at overflower/src/lib.rs lines 129-132 pass `sum_wrap`,
`sum_panic` and `sum_saturate`). -/
def sumTagWiringPolicies : List Policy := [.wrap, .panicking, .saturate]

/-- Whether the product reduction wiring is present: the two product
`op!(tagiterimpl ...)` invocations (lines 133-136) are commented out. -/
def productWiringActive : Bool := false

/-! ### The full per-kind Semantics Table rows for Wrap and Saturate.
Each row takes the operand pair `(a, b)` for the binary operations, `a`
alone for the unary ones, and the shift count `r` for the shifts; unused
arguments are ignored by the other operations. -/

/-- The operations of the Semantics Table that exist on unsigned kinds
(Neg has no unsigned entry points). -/
inductive UTableOp
  | add
  | sub
  | mul
  | div
  | rem
  | shl
  | shr
  | abs
deriving DecidableEq

/-- Wrap-policy row of the unsigned Semantics Table. -/
def wrapTableU : UTableOp → Nat → Nat → Nat → Nat → Option Nat
  | .add, w, a, b, _ => some (addWrapU w a b)
  | .sub, w, a, b, _ => some (subWrapU w a b)
  | .mul, w, a, b, _ => some (mulWrapU w a b)
  | .div, _, a, b, _ => divWrapU a b
  | .rem, _, a, b, _ => remWrapU a b
  | .shl, w, a, _, r => some (shlWrapU w a r)
  | .shr, w, a, _, r => some (shrWrapU w a r)
  | .abs, _, a, _, _ => some (absWrapU a)

/-- Saturate-policy row of the unsigned Semantics Table. -/
def satTableU : UTableOp → Nat → Nat → Nat → Nat → Option Nat
  | .add, w, a, b, _ => some (addSatU w a b)
  | .sub, _, a, b, _ => some (subSatU a b)
  | .mul, w, a, b, _ => some (mulSatU w a b)
  | .div, w, a, b, _ => some (divSatU w a b)
  | .rem, w, a, b, _ => some (remSatU w a b)
  | .shl, w, a, _, r => some (shlSatU w a r)
  | .shr, w, a, _, r => some (shrSatU w a r)
  | .abs, _, a, _, _ => some (absSatU a)

/-- The operations of the Semantics Table that exist on signed kinds. -/
inductive STableOp
  | add
  | sub
  | mul
  | div
  | rem
  | shl
  | shr
  | neg
  | abs
deriving DecidableEq

/-- Wrap-policy row of the signed Semantics Table. -/
def wrapTableS : STableOp → Nat → Int → Int → Nat → Option Int
  | .add, w, a, b, _ => some (addWrapS w a b)
  | .sub, w, a, b, _ => some (subWrapS w a b)
  | .mul, w, a, b, _ => some (mulWrapS w a b)
  | .div, w, a, b, _ => divWrapS w a b
  | .rem, w, a, b, _ => remWrapS w a b
  | .shl, w, a, _, r => some (shlWrapS w a r)
  | .shr, w, a, _, r => some (shrWrapS w a r)
  | .neg, w, a, _, _ => some (negWrapS w a)
  | .abs, w, a, _, _ => some (absWrapS w a)

/-- Saturate-policy row of the signed Semantics Table; the extra `bits`
parameter is the kind's shift bits constant. -/
def satTableS : STableOp → Nat → Nat → Int → Int → Nat → Option Int
  | .add, w, _, a, b, _ => some (addSatS w a b)
  | .sub, w, _, a, b, _ => some (subSatS w a b)
  | .mul, w, _, a, b, _ => some (mulSatS w a b)
  | .div, w, _, a, b, _ => some (divSatS w a b)
  | .rem, w, _, a, b, _ => remSatS w a b
  | .shl, w, bits, a, _, r => some (shlSatS w bits a r)
  | .shr, _, bits, a, _, r => some (shrSatS bits a r)
  | .neg, w, _, a, _, _ => some (negSatS w a)
  | .abs, w, _, a, _, _ => some (absSatS w a)

/-! ### Spec-side reference semantics for the Wrap policy -/

/-- Modelled from the spec: reinterpret the true mathematical result taken
modulo `2 ^ w` as a value of the unsigned kind of width `w` (the value, as
an integer, of the low-order `w` bits). -/
def reinterpretU (w : Nat) (z : Int) : Int := z % 2 ^ w

/-- Modelled from the spec: reinterpret the true mathematical result taken
modulo `2 ^ w` as a value of the signed kind of width `w` (two's-complement
reading of the low-order `w` bits). -/
def reinterpretS (w : Nat) (z : Int) : Int :=
  if z % 2 ^ w < 2 ^ (w - 1) then z % 2 ^ w else z % 2 ^ w - 2 ^ w

/-! ### Arithmetic helper lemmas -/

theorem two_pow_split (w : Nat) (hw : 0 < w) : (2 : Int) ^ w = 2 * 2 ^ (w - 1) := by
  conv_lhs => rw [show w = w - 1 + 1 from (Nat.succ_pred_eq_of_pos hw).symm]
  rw [pow_succ]
  ring

theorem intWrap_eq_self {w : Nat} {z : Int} (hw : 0 < w) (h1 : sMin w ≤ z)
    (h2 : z ≤ sMax w) : intWrap w z = z := by
  have hP : (0 : Int) < 2 ^ (w - 1) := by positivity
  have h2w := two_pow_split w hw
  unfold sMin at h1
  unfold sMax at h2
  unfold intWrap
  rw [Int.emod_eq_of_lt (by omega) (by omega)]
  omega

theorem intWrap_pow {w : Nat} (hw : 0 < w) :
    intWrap w ((2 : Int) ^ (w - 1)) = sMin w := by
  have h2w := two_pow_split w hw
  unfold intWrap sMin
  rw [show (2 : Int) ^ (w - 1) + 2 ^ (w - 1) = 2 * 2 ^ (w - 1) from by ring, ← h2w,
    Int.emod_self]
  ring

theorem intWrap_eq_reinterpret {w : Nat} (hw : 0 < w) (z : Int) :
    intWrap w z = reinterpretS w z := by
  have hP : (0 : Int) < 2 ^ (w - 1) := by positivity
  have h2w := two_pow_split w hw
  have hpos : (0 : Int) < 2 ^ w := by positivity
  have hn0 : 0 ≤ z % 2 ^ w := Int.emod_nonneg z (by positivity)
  have hn2 : z % 2 ^ w < 2 ^ w := Int.emod_lt_of_pos z hpos
  have hc : (2 : Int) ^ (w - 1) % 2 ^ w = 2 ^ (w - 1) :=
    Int.emod_eq_of_lt (by positivity) (by omega)
  have key : (z + 2 ^ (w - 1)) % 2 ^ w = (z % 2 ^ w + 2 ^ (w - 1)) % 2 ^ w := by
    conv_lhs => rw [Int.add_emod]
    rw [hc]
  unfold intWrap reinterpretS
  rw [key]
  by_cases hlt : z % 2 ^ w < 2 ^ (w - 1)
  · rw [if_pos hlt, Int.emod_eq_of_lt (by omega) (by omega)]
    ring
  · rw [if_neg hlt,
      show z % 2 ^ w + 2 ^ (w - 1) = (z % 2 ^ w - 2 ^ (w - 1)) + 2 ^ w * 1 from by omega,
      Int.add_mul_emod_self_left, Int.emod_eq_of_lt (by omega) (by omega)]
    omega

theorem clampS_eq_self {w : Nat} {z : Int} (h1 : sMin w ≤ z) (h2 : z ≤ sMax w) :
    clampS w z = z := by
  unfold clampS
  rw [min_eq_right h2, max_eq_right h1]

theorem sbits_le_swidth (k : SKind) : sbits k ≤ swidth k := by
  cases k <;> decide

theorem uwidth_le_64 (k : UKind) : uwidth k ≤ 64 := by
  cases k <;> decide

theorem swidth_le_64 (k : SKind) : swidth k ≤ 64 := by
  cases k <;> decide

/-! ### Claim theorems -/

/-- Claim C7 (confirmed): for every signed kind, dividing the kind's
minimum by -1 wraps back to the minimum under the Wrap policy, saturates to
the maximum under the Saturate policy, and fails under the Panic policy. -/
theorem c7_div_min_by_neg_one (w : Nat) (hw : 0 < w) :
    divWrapS w (sMin w) (-1) = some (sMin w) ∧
    divSatS w (sMin w) (-1) = sMax w ∧
    divPanicS w (sMin w) (-1) = none := by
  refine ⟨?_, ?_, ?_⟩
  · unfold divWrapS
    rw [if_neg (by norm_num)]
    rw [show Int.tdiv (sMin w) (-1) = (2 : Int) ^ (w - 1) from ?_]
    · rw [intWrap_pow hw]
    · rw [show (-1 : Int) = -(1 : Int) from rfl, Int.tdiv_neg, Int.tdiv_one]
      unfold sMin
      ring
  · unfold divSatS
    rw [if_neg (by norm_num), if_pos rfl, if_pos rfl]
  · unfold divPanicS
    rw [if_pos (Or.inr ⟨rfl, rfl⟩)]

/-- Witness for C7 at the 8-bit signed kind. -/
theorem c7_div_min_by_neg_one_witness :
    divWrapS 8 (sMin 8) (-1) = some (sMin 8) ∧
    divSatS 8 (sMin 8) (-1) = sMax 8 ∧
    divPanicS 8 (sMin 8) (-1) = none :=
  c7_div_min_by_neg_one 8 (by decide)

/-- Claim C9 (confirmed): for every signed kind, negating the minimum wraps
to the minimum, saturates to the maximum, and fails under Panic; any other
in-range value is sent to its ordinary negation by all three policies. -/
theorem c9_negate_minimum (w : Nat) (x : Int) (hw : 0 < w) (hx1 : sMin w ≤ x)
    (hx2 : x ≤ sMax w) :
    negWrapS w (sMin w) = sMin w ∧
    negSatS w (sMin w) = sMax w ∧
    negPanicS w (sMin w) = none ∧
    (x ≠ sMin w →
      negWrapS w x = -x ∧ negPanicS w x = some (-x) ∧ negSatS w x = -x) := by
  have hP : (0 : Int) < 2 ^ (w - 1) := by positivity
  refine ⟨?_, ?_, ?_, fun hne => ⟨?_, ?_, ?_⟩⟩
  · unfold negWrapS
    rw [show -sMin w = (2 : Int) ^ (w - 1) from by unfold sMin; ring, intWrap_pow hw]
  · unfold negSatS
    rw [if_pos rfl]
  · unfold negPanicS
    rw [if_pos rfl]
  · unfold negWrapS
    have hb1 : sMin w ≤ -x := by
      unfold sMax at hx2
      unfold sMin
      omega
    have hb2 : -x ≤ sMax w := by
      unfold sMin at hx1 hne
      unfold sMax
      omega
    exact intWrap_eq_self hw hb1 hb2
  · unfold negPanicS
    rw [if_neg hne]
  · unfold negSatS
    rw [if_neg hne]

/-- Witness for C9 at the 8-bit signed kind and the value 5. -/
theorem c9_negate_minimum_witness :
    negWrapS 8 (sMin 8) = sMin 8 ∧ negSatS 8 (sMin 8) = sMax 8 ∧
    negPanicS 8 (sMin 8) = none ∧ negWrapS 8 5 = -5 := by
  have h := c9_negate_minimum 8 5 (by decide) (by decide) (by decide)
  exact ⟨h.1, h.2.1, h.2.2.1, (h.2.2.2 (by decide)).1⟩

/-- Claim C6 (confirmed): saturating division by zero returns the maximum
for a positive dividend, the minimum for a negative dividend and zero for a
zero dividend; the saturating remainder by zero returns the maximum for a
nonzero dividend and zero for a zero dividend.  Unsigned kinds have no
negative dividends, and their minimum never arises this way. -/
theorem c6_saturate_div_rem_zero (w : Nat) (a : Nat) (sa : Int) :
    (0 < a → divSatU w a 0 = uMax w) ∧ divSatU w 0 0 = 0 ∧
    (a ≠ 0 → remSatU w a 0 = uMax w) ∧ remSatU w 0 0 = 0 ∧
    (0 < sa → divSatS w sa 0 = sMax w) ∧ (sa < 0 → divSatS w sa 0 = sMin w) ∧
    divSatS w 0 0 = 0 ∧
    (sa ≠ 0 → remSatS w sa 0 = some (sMax w)) ∧ remSatS w 0 0 = some 0 := by
  refine ⟨fun h => ?_, ?_, fun h => ?_, ?_, fun h => ?_, fun h => ?_, ?_,
    fun h => ?_, ?_⟩
  · unfold divSatU
    rw [if_pos rfl, if_neg (by omega)]
  · unfold divSatU
    rw [if_pos rfl, if_pos rfl]
  · unfold remSatU
    rw [if_pos rfl, if_neg h]
  · unfold remSatU
    rw [if_pos rfl, if_pos rfl]
  · unfold divSatS
    rw [if_pos rfl, if_pos h]
  · unfold divSatS
    rw [if_pos rfl, if_neg (by omega), if_neg (by omega)]
  · unfold divSatS
    rw [if_pos rfl, if_neg (by omega), if_pos rfl]
  · unfold remSatS
    rw [if_pos rfl, if_neg h]
  · unfold remSatS
    rw [if_pos rfl, if_pos rfl]

/-- Witness for C6 at the 32-bit kinds. -/
theorem c6_saturate_div_rem_zero_witness :
    divSatU 32 5 0 = uMax 32 ∧ divSatS 32 (-5) 0 = sMin 32 ∧
    remSatS 32 5 0 = some (sMax 32) ∧ divSatS 32 0 0 = 0 := by
  have h := c6_saturate_div_rem_zero 32 5 (-5)
  have h2 := c6_saturate_div_rem_zero 32 5 (5 : Int)
  exact ⟨h.1 (by decide), h.2.2.2.2.2.1 (by decide), h2.2.2.2.2.2.2.2.1 (by decide),
    h.2.2.2.2.2.2.1⟩

/-- Claim C4 as stated is false on this code: the public `OverflowerSum`
trait does declare a Saturate entry point (`sum_saturate`). -/
theorem c4_sum_saturate_counterexample :
    Policy.saturate ∈ overflowerSumTraitPolicies := by decide

/-- Claim C4 amended: the (Sum, Saturate) cell is present on the public
surface — the `OverflowerSum` trait declares `sum_saturate` and the sum
tag-level wiring forwards it; it is the Product reduction whose wiring is
absent (commented out). -/
theorem c4_sum_surface_amended :
    Policy.saturate ∈ overflowerSumTraitPolicies ∧
    Policy.saturate ∈ sumTagWiringPolicies ∧
    productWiringActive = false := by decide

/-- Claim C8 (confirmed): the Wrap-policy add, sub and mul return the true
mathematical result taken modulo `2 ^ w`, reinterpreted as a value of the
kind, for unsigned and signed kinds alike. -/
theorem c8_wrap_is_mod_arithmetic (w : Nat) (a b : Nat) (sa sb : Int)
    (hw : 0 < w) (_ha : a < 2 ^ w) (hb : b < 2 ^ w) :
    (addWrapU w a b : Int) = reinterpretU w ((a : Int) + b) ∧
    (subWrapU w a b : Int) = reinterpretU w ((a : Int) - b) ∧
    (mulWrapU w a b : Int) = reinterpretU w ((a : Int) * b) ∧
    addWrapS w sa sb = reinterpretS w (sa + sb) ∧
    subWrapS w sa sb = reinterpretS w (sa - sb) ∧
    mulWrapS w sa sb = reinterpretS w (sa * sb) := by
  refine ⟨?_, ?_, ?_, intWrap_eq_reinterpret hw _, intWrap_eq_reinterpret hw _,
    intWrap_eq_reinterpret hw _⟩
  · unfold addWrapU reinterpretU
    push_cast
    ring_nf
  · unfold subWrapU reinterpretU
    have hb2 : b ≤ a + 2 ^ w := by omega
    push_cast [Nat.cast_sub hb2]
    rw [show (a : Int) + 2 ^ w - b = ((a : Int) - b) + 2 ^ w * 1 from by ring,
      Int.add_mul_emod_self_left]
  · unfold mulWrapU reinterpretU
    push_cast
    ring_nf

/-- Witness for C8 at the 8-bit kinds. -/
theorem c8_wrap_is_mod_arithmetic_witness :
    (subWrapU 8 1 2 : Int) = reinterpretU 8 ((1 : Int) - 2) ∧
    addWrapS 8 100 100 = reinterpretS 8 (100 + 100) := by
  have h := c8_wrap_is_mod_arithmetic 8 1 2 100 100 (by decide) (by decide) (by decide)
  exact ⟨h.2.1, h.2.2.2.1⟩

/-- Claim C2 as stated is false on this code: the Wrap-policy division
panics on a zero divisor (`wrapping_div` delegates to native division), and
the signed Saturate-policy remainder panics on the pair (MIN, -1) (the
`self % rhs` branch of the saturate_signed macro hits native overflow). -/
theorem c2_totality_counterexample :
    wrapOpU Op.div 8 1 0 = none ∧ satOpS Op.rem 8 (-128) (-1) = none := by
  decide

/-- Claim C2 amended: for every operation of the Semantics Table (add,
sub, mul, div, rem, shl, shr, neg, abs — Neg existing only on signed
kinds), the Wrap-policy and Saturate-policy entry points return a value
for every operand pair, except that Wrap div and rem panic exactly on a
zero divisor and the signed Saturate rem panics exactly on the pair
(MIN, -1). -/
theorem c2_totality_amended (uop : UTableOp) (sop : STableOp) (w bits : Nat)
    (a b r : Nat) (sa sb : Int) :
    (wrapTableU uop w a b r = none ↔
      (uop = UTableOp.div ∨ uop = UTableOp.rem) ∧ b = 0) ∧
    satTableU uop w a b r ≠ none ∧
    (wrapTableS sop w sa sb r = none ↔
      (sop = STableOp.div ∨ sop = STableOp.rem) ∧ sb = 0) ∧
    (satTableS sop w bits sa sb r = none ↔
      sop = STableOp.rem ∧ sa = sMin w ∧ sb = -1) := by
  refine ⟨?_, ?_, ?_, ?_⟩
  · cases uop
    case div => by_cases hb : b = 0 <;> simp [wrapTableU, divWrapU, hb]
    case rem => by_cases hb : b = 0 <;> simp [wrapTableU, remWrapU, hb]
    all_goals simp [wrapTableU]
  · cases uop <;> simp [satTableU]
  · cases sop
    case div => by_cases hb : sb = 0 <;> simp [wrapTableS, divWrapS, hb]
    case rem => by_cases hb : sb = 0 <;> simp [wrapTableS, remWrapS, hb]
    all_goals simp [wrapTableS]
  · cases sop
    case rem =>
      by_cases hb : sb = 0
      · simp [satTableS, remSatS, hb]
      · by_cases hm : sa = sMin w ∧ sb = -1
        · simp [satTableS, remSatS, hb, hm]
        · simp only [satTableS, remSatS, if_neg hb, if_neg hm]
          simp [hm]
    all_goals simp [satTableS]

/-- Claim C3 helper: the Panic-policy entry points compute exactly the
native defined result on unsigned kinds. -/
theorem panicOpU_eq_nativeOpU (op : Op) (w : Nat) (a b : Nat) :
    panicOpU op w a b = nativeOpU op w a b := by
  cases op <;> rfl

/-- Claim C3 helper: the Panic-policy entry points compute exactly the
native defined result on signed kinds. -/
theorem panicOpS_eq_nativeOpS (op : Op) (w : Nat) (a b : Int) :
    panicOpS op w a b = nativeOpS op w a b := by
  cases op <;> rfl

/-- Claim C3 helper: whenever the native operator has a defined result, the
Saturate policy returns that same result (unsigned kinds). -/
theorem satOpU_eq_of_native {op : Op} {w : Nat} {a b v : Nat}
    (h : nativeOpU op w a b = some v) : satOpU op w a b = some v := by
  cases op
  case add =>
    simp only [nativeOpU] at h
    split at h
    · simp only [satOpU, addSatU, uMax, Option.some.injEq] at h ⊢
      omega
    · exact absurd h (by simp)
  case sub =>
    simp only [nativeOpU] at h
    split at h
    · simp only [satOpU, subSatU]
      exact h
    · exact absurd h (by simp)
  case mul =>
    simp only [nativeOpU] at h
    split at h
    · simp only [satOpU, mulSatU, uMax, Option.some.injEq] at h ⊢
      omega
    · exact absurd h (by simp)
  case div =>
    simp only [nativeOpU] at h
    split at h
    · exact absurd h (by simp)
    · simp only [satOpU, divSatU]
      next hb => rw [if_neg hb]; exact h
  case rem =>
    simp only [nativeOpU] at h
    split at h
    · exact absurd h (by simp)
    · simp only [satOpU, remSatU]
      next hb => rw [if_neg hb]; exact h

/-- Claim C3 helper: whenever the native operator has a defined result, the
Saturate policy returns that same result (signed kinds). -/
theorem satOpS_eq_of_native {op : Op} {w : Nat} {a b v : Int}
    (h : nativeOpS op w a b = some v) : satOpS op w a b = some v := by
  cases op
  case add =>
    simp only [nativeOpS] at h
    split at h
    · next hin =>
      simp only [Option.some.injEq] at h
      simp only [satOpS, addSatS, Option.some.injEq]
      rw [clampS_eq_self hin.1 hin.2]
      exact h
    · exact absurd h (by simp)
  case sub =>
    simp only [nativeOpS] at h
    split at h
    · next hin =>
      simp only [Option.some.injEq] at h
      simp only [satOpS, subSatS, Option.some.injEq]
      rw [clampS_eq_self hin.1 hin.2]
      exact h
    · exact absurd h (by simp)
  case mul =>
    simp only [nativeOpS] at h
    split at h
    · next hin =>
      simp only [Option.some.injEq] at h
      simp only [satOpS, mulSatS, Option.some.injEq]
      rw [clampS_eq_self hin.1 hin.2]
      exact h
    · exact absurd h (by simp)
  case div =>
    simp only [nativeOpS] at h
    split at h
    · exact absurd h (by simp)
    · next hcond =>
      push_neg at hcond
      simp only [satOpS, divSatS]
      rw [if_neg hcond.1]
      by_cases hb1 : b = -1
      · rw [if_pos hb1, if_neg (fun ha => hcond.2 ha hb1)]
        simp only [Option.some.injEq] at h ⊢
        rw [← h, hb1, show (-1 : Int) = -(1 : Int) from rfl, Int.tdiv_neg,
          Int.tdiv_one]
      · rw [if_neg hb1]
        exact h
  case rem =>
    simp only [nativeOpS] at h
    split at h
    · exact absurd h (by simp)
    · next hcond =>
      push_neg at hcond
      simp only [satOpS, remSatS]
      rw [if_neg hcond.1, if_neg (by intro hc; exact hcond.2 hc.1 hc.2)]
      exact h

/-- Claim C3 (confirmed): for each of the five binary operations, whenever
the Saturate result differs from the native operator's defined result (an
overflow or an undefined native case), the Panic entry point fails; and
whenever the Saturate result equals the native defined result, the Panic
entry point returns that same value.  Holds for unsigned and signed kinds. -/
theorem c3_panic_agreement (op : Op) (w : Nat) (a b : Nat) (sa sb : Int) :
    ((satOpU op w a b ≠ nativeOpU op w a b → panicOpU op w a b = none) ∧
      (∀ v, satOpU op w a b = some v → nativeOpU op w a b = some v →
        panicOpU op w a b = some v)) ∧
    ((satOpS op w sa sb ≠ nativeOpS op w sa sb → panicOpS op w sa sb = none) ∧
      (∀ v, satOpS op w sa sb = some v → nativeOpS op w sa sb = some v →
        panicOpS op w sa sb = some v)) := by
  refine ⟨⟨fun hne => ?_, fun v _ hn => ?_⟩, ⟨fun hne => ?_, fun v _ hn => ?_⟩⟩
  · rw [panicOpU_eq_nativeOpU]
    cases hnat : nativeOpU op w a b with
    | none => rfl
    | some v => exact absurd (hnat ▸ satOpU_eq_of_native hnat) hne
  · rw [panicOpU_eq_nativeOpU]
    exact hn
  · rw [panicOpS_eq_nativeOpS]
    cases hnat : nativeOpS op w sa sb with
    | none => rfl
    | some v => exact absurd (hnat ▸ satOpS_eq_of_native hnat) hne
  · rw [panicOpS_eq_nativeOpS]
    exact hn

/-- Witness for C3: an overflowing unsigned add makes Panic fail, and an
agreeing signed div returns the shared value. -/
theorem c3_panic_agreement_witness :
    panicOpU Op.add 8 200 100 = none ∧ panicOpS Op.div 8 100 2 = some 50 := by
  have h1 := (c3_panic_agreement Op.add 8 200 100 0 0).1.1
  have h2 := (c3_panic_agreement Op.div 8 200 100 100 2).2.2
  exact ⟨h1 (by decide), h2 50 (by decide) (by decide)⟩

/-- Claim C5 helper: the Panic-policy sum fold processes a concatenation by
processing the first part and then, only if it succeeded, the second part
from the resulting total (unsigned kinds). -/
theorem sumPanicAuxU_append (w acc : Nat) (l1 l2 : List Nat) :
    sumPanicAuxU w acc (l1 ++ l2) =
      Option.bind (sumPanicAuxU w acc l1) (fun s => sumPanicAuxU w s l2) := by
  induction l1 generalizing acc with
  | nil => rfl
  | cons x xs ih =>
    cases h : addPanicU w acc x with
    | none => simp [sumPanicAuxU, h]
    | some s => simp [sumPanicAuxU, h, ih s]

/-- Claim C5 helper: the same concatenation law for signed kinds. -/
theorem sumPanicAuxS_append (w : Nat) (acc : Int) (l1 l2 : List Int) :
    sumPanicAuxS w acc (l1 ++ l2) =
      Option.bind (sumPanicAuxS w acc l1) (fun s => sumPanicAuxS w s l2) := by
  induction l1 generalizing acc with
  | nil => rfl
  | cons x xs ih =>
    cases h : addPanicS w acc x with
    | none => simp [sumPanicAuxS, h]
    | some s => simp [sumPanicAuxS, h, ih s]

/-- Claim C5 (confirmed against the spec-modelled sum wiring): the
Panic-policy sum folds the Panic-policy binary add from 0 over the sequence
once, in order (the concatenation law), and the first element whose
addition to the running total fails makes the whole sum fail, whatever
elements follow — they are never operated on. -/
theorem c5_sum_short_circuit (w : Nat) (acc t : Nat) (x : Nat)
    (pre rest : List Nat) (sacc st sx : Int) (spre srest : List Int) :
    (sumPanicAuxU w acc (pre ++ rest) =
      Option.bind (sumPanicAuxU w acc pre) (fun s => sumPanicAuxU w s rest)) ∧
    (sumPanicAuxU w 0 pre = some t → addPanicU w t x = none →
      sumPanicU w (pre ++ x :: rest) = none) ∧
    (sumPanicAuxS w sacc (spre ++ srest) =
      Option.bind (sumPanicAuxS w sacc spre) (fun s => sumPanicAuxS w s srest)) ∧
    (sumPanicAuxS w 0 spre = some st → addPanicS w st sx = none →
      sumPanicS w (spre ++ sx :: srest) = none) := by
  refine ⟨sumPanicAuxU_append w acc pre rest, fun h1 h2 => ?_,
    sumPanicAuxS_append w sacc spre srest, fun h1 h2 => ?_⟩
  · unfold sumPanicU
    rw [sumPanicAuxU_append, h1]
    simp [sumPanicAuxU, h2]
  · unfold sumPanicS
    rw [sumPanicAuxS_append, h1]
    simp [sumPanicAuxS, h2]

/-- Witness for C5: the 8-bit sum of 200, 100, 5 fails at the second
element, with the 5 still unconsumed. -/
theorem c5_sum_short_circuit_witness : sumPanicU 8 ([200] ++ 100 :: [5]) = none :=
  (c5_sum_short_circuit 8 0 200 100 [200] [5] 0 0 0 [] []).2.1 (by decide)
    (by decide)

/-- Claim C1 as stated is false on this code: shr_wrap masks the shift
amount modulo the width instead of returning zero (200u8 shifted right by
10 yields 50), shr_panic fails on an over-width shift instead of returning
zero, and the signed shr_saturate returns zero already at width minus one
(shifting -1i8 right by 7 yields 0 while the native arithmetic shift, as
shr_panic shows, yields -1). -/
theorem c1_shr_counterexample :
    shrWrapUK UKind.u8 200 10 = 50 ∧ shrPanicUK UKind.u8 200 10 = none ∧
    shrSatSK SKind.i8 (-1) 7 = 0 ∧ shrPanicSK SKind.i8 (-1) 7 = some (-1) := by
  decide

/-- Claim C1 amended: shr_saturate compares the untruncated shift amount
with the kind's bits constant (the width for unsigned kinds, and 7, 15, 31,
64, 63 for i8, i16, i32, i64, isize), returning zero at or above it and the
native shift below it; shr_panic and shr_wrap first truncate the amount to
u32, shr_panic failing exactly when the truncated amount is at least the
width (so an amount of 2^32 truncates to 0 and is no panic) and returning
the native shift by the truncated amount otherwise, while shr_wrap shifts
by the truncated amount reduced modulo the width; below the bits constant
all three return the native shift. -/
theorem c1_shr_semantics (uk : UKind) (sk : SKind) (x r : Nat) (sx : Int) :
    (uwidth uk ≤ r → shrSatUK uk x r = 0) ∧
    (uwidth uk ≤ castU32 r → shrPanicUK uk x r = none) ∧
    (castU32 r < uwidth uk → shrPanicUK uk x r = some (x / 2 ^ castU32 r)) ∧
    shrWrapUK uk x r = x / 2 ^ (castU32 r % uwidth uk) ∧
    (r < uwidth uk →
      shrSatUK uk x r = x / 2 ^ r ∧ shrPanicUK uk x r = some (x / 2 ^ r) ∧
      shrWrapUK uk x r = x / 2 ^ r) ∧
    (sbits sk ≤ r → shrSatSK sk sx r = 0) ∧
    (swidth sk ≤ castU32 r → shrPanicSK sk sx r = none) ∧
    (castU32 r < swidth sk → shrPanicSK sk sx r = some (sar sx (castU32 r))) ∧
    shrWrapSK sk sx r = sar sx (castU32 r % swidth sk) ∧
    (r < sbits sk →
      shrSatSK sk sx r = sar sx r ∧ shrPanicSK sk sx r = some (sar sx r) ∧
      shrWrapSK sk sx r = sar sx r) := by
  refine ⟨fun h => ?_, fun h => ?_, fun h => ?_, rfl, fun h => ?_, fun h => ?_,
    fun h => ?_, fun h => ?_, rfl, fun h => ?_⟩
  · unfold shrSatUK shrSatU
    rw [if_pos h]
  · unfold shrPanicUK shrPanicU
    rw [if_neg (by omega)]
  · unfold shrPanicUK shrPanicU
    rw [if_pos h]
  · have hr32 : r < 2 ^ 32 :=
      lt_of_lt_of_le (lt_of_lt_of_le h (uwidth_le_64 uk)) (by norm_num)
    have hc : castU32 r = r := Nat.mod_eq_of_lt hr32
    refine ⟨?_, ?_, ?_⟩
    · unfold shrSatUK shrSatU
      rw [if_neg (by omega)]
    · unfold shrPanicUK shrPanicU
      rw [hc, if_pos h]
    · unfold shrWrapUK shrWrapU
      rw [hc, Nat.mod_eq_of_lt h]
  · unfold shrSatSK shrSatS
    rw [if_pos h]
  · unfold shrPanicSK shrPanicS
    rw [if_neg (by omega)]
  · unfold shrPanicSK shrPanicS
    rw [if_pos h]
  · have hw : r < swidth sk := lt_of_lt_of_le h (sbits_le_swidth sk)
    have hr32 : r < 2 ^ 32 :=
      lt_of_lt_of_le (lt_of_lt_of_le hw (swidth_le_64 sk)) (by norm_num)
    have hc : castU32 r = r := Nat.mod_eq_of_lt hr32
    refine ⟨?_, ?_, ?_⟩
    · unfold shrSatSK shrSatS
      rw [if_neg (by omega)]
    · unfold shrPanicSK shrPanicS
      rw [hc, if_pos hw]
    · unfold shrWrapSK shrWrapS
      rw [hc, Nat.mod_eq_of_lt hw]

/-- Witness for C1 at the 8-bit unsigned kind, including the shift amount
2^32 whose u32 truncation is 0: saturate still returns zero there, while
panic returns the operand shifted by the truncated count 0. -/
theorem c1_shr_semantics_witness :
    shrSatUK UKind.u8 200 (2 ^ 32) = 0 ∧
    shrPanicUK UKind.u8 200 (2 ^ 32) = some (200 / 2 ^ castU32 (2 ^ 32)) ∧
    shrPanicUK UKind.u8 200 10 = none :=
  ⟨(c1_shr_semantics UKind.u8 SKind.i8 200 (2 ^ 32) 0).1 (by decide),
   (c1_shr_semantics UKind.u8 SKind.i8 200 (2 ^ 32) 0).2.2.1 (by decide),
   (c1_shr_semantics UKind.u8 SKind.i8 200 10 0).2.1 (by decide)⟩

/-- Claim C10 as stated is false on this code: for the signed kinds the
in-place ShrAssignSaturate uses checked_shr (threshold: the width) while
the value-returning ShrSaturate uses the kind's bits constant (width minus
one for i8), so shifting -1i8 right by 7 in place leaves -1 where the
value-returning variant yields 0. -/
theorem c10_assign_counterexample :
    shrSatSK SKind.i8 (-1) 7 = 0 ∧ shrAssignSatSK SKind.i8 (-1) 7 = -1 := by
  decide

/-- Claim C10 amended: every in-place assign variant present in the source
computes exactly its value-returning sibling — for the five binary
operations under Wrap and Panic, and for the shifts under every policy —
except ShrAssignSaturate, which stores checked_shr of the u32-truncated
amount, or zero: it agrees with ShrSaturate on unsigned kinds for amounts
below 2^32 and on signed kinds for amounts below the bits constant, and
whenever the amount is at or above the kind's bits constant but its u32
truncation is below the width (the signed band between the bits constant
and the width, and amounts of 2^32 and above with small truncation on both
signednesses) it returns the native shift by the truncated amount while
the value variant returns zero; when the truncation too is at or above the
threshold both variants return zero. -/
theorem c10_assign_agreement (op : Op) (w : Nat) (a b : Nat) (sa sb : Int)
    (uk : UKind) (sk : SKind) (x r : Nat) (sx : Int) :
    shrAssignSatUK uk x r =
      (if castU32 r < uwidth uk then x / 2 ^ castU32 r else 0) ∧
    (r < 2 ^ 32 → shrAssignSatUK uk x r = shrSatUK uk x r) ∧
    (2 ^ 32 ≤ r → castU32 r < uwidth uk →
      shrAssignSatUK uk x r = x / 2 ^ castU32 r ∧ shrSatUK uk x r = 0) ∧
    (2 ^ 32 ≤ r → uwidth uk ≤ castU32 r →
      shrAssignSatUK uk x r = 0 ∧ shrSatUK uk x r = 0) ∧
    shrAssignSatSK sk sx r =
      (if castU32 r < swidth sk then sar sx (castU32 r) else 0) ∧
    (r < sbits sk → shrAssignSatSK sk sx r = shrSatSK sk sx r) ∧
    (sbits sk ≤ r → castU32 r < swidth sk →
      shrSatSK sk sx r = 0 ∧ shrAssignSatSK sk sx r = sar sx (castU32 r)) ∧
    (sbits sk ≤ r → swidth sk ≤ castU32 r →
      shrSatSK sk sx r = 0 ∧ shrAssignSatSK sk sx r = 0) ∧
    wrapAssignOpU op w a b = wrapOpU op w a b ∧
    panicAssignOpU op w a b = panicOpU op w a b ∧
    wrapAssignOpS op w sa sb = wrapOpS op w sa sb ∧
    panicAssignOpS op w sa sb = panicOpS op w sa sb ∧
    shlAssignWrapU w x r = shlWrapU w x r ∧
    shlAssignPanicU w x r = shlPanicU w x r ∧
    shlAssignSatU w x r = shlSatU w x r ∧
    shrAssignWrapU w x r = shrWrapU w x r ∧
    shrAssignPanicU w x r = shrPanicU w x r ∧
    shlAssignWrapS w sx r = shlWrapS w sx r ∧
    shlAssignPanicS w (sbits sk) sx r = shlPanicS w (sbits sk) sx r ∧
    shlAssignSatS w (sbits sk) sx r = shlSatS w (sbits sk) sx r ∧
    shrAssignWrapS w sx r = shrWrapS w sx r ∧
    shrAssignPanicS w sx r = shrPanicS w sx r := by
  have h64u : uwidth uk ≤ 64 := uwidth_le_64 uk
  have h64s : swidth sk ≤ 64 := swidth_le_64 sk
  have h32 : (64 : Nat) ≤ 2 ^ 32 := by norm_num
  refine ⟨rfl, fun h => ?_, fun h1 h2 => ⟨?_, ?_⟩, fun h1 h2 => ⟨?_, ?_⟩, rfl,
    fun h => ?_, fun h1 h2 => ⟨?_, ?_⟩, fun h1 h2 => ⟨?_, ?_⟩,
    by cases op <;> rfl, by cases op <;> rfl, by cases op <;> rfl,
    by cases op <;> rfl, rfl, ?_, ?_, rfl, rfl, rfl, ?_, rfl, rfl, rfl⟩
  · have hc : castU32 r = r := Nat.mod_eq_of_lt h
    unfold shrAssignSatUK shrAssignSatU shrSatUK shrSatU
    rw [hc]
    rcases Nat.lt_or_ge r (uwidth uk) with h2 | h2
    · rw [if_pos h2, if_neg (by omega)]
    · rw [if_neg (by omega), if_pos h2]
  · unfold shrAssignSatUK shrAssignSatU
    rw [if_pos h2]
  · unfold shrSatUK shrSatU
    rw [if_pos (by omega)]
  · unfold shrAssignSatUK shrAssignSatU
    rw [if_neg (by omega)]
  · unfold shrSatUK shrSatU
    rw [if_pos (by omega)]
  · have hw : r < swidth sk := lt_of_lt_of_le h (sbits_le_swidth sk)
    have hc : castU32 r = r := Nat.mod_eq_of_lt (by omega)
    unfold shrAssignSatSK shrAssignSatS shrSatSK shrSatS
    rw [hc, if_pos hw, if_neg (by omega)]
  · unfold shrSatSK shrSatS
    rw [if_pos h1]
  · unfold shrAssignSatSK shrAssignSatS
    rw [if_pos h2]
  · unfold shrSatSK shrSatS
    rw [if_pos h1]
  · unfold shrAssignSatSK shrAssignSatS
    rw [if_neg (by omega)]
  · unfold shlAssignPanicU shlPanicU
    by_cases hx : x = 0 <;> simp [hx]
  · unfold shlAssignSatU shlSatU
    by_cases hx : x = 0 <;> simp [hx]
  · unfold shlAssignPanicS shlPanicS
    by_cases hx : sx = 0 <;> simp [hx]

/-- Witness for C10: at the shift amount 2^32 on u8 the assign variant
returns the operand shifted by the truncated count 0 while the value
variant returns zero, and the signed in-place saturating right shift of
-1i8 by 7 is the native arithmetic shift, not zero. -/
theorem c10_assign_agreement_witness :
    (shrAssignSatUK UKind.u8 5 (2 ^ 32) = 5 / 2 ^ castU32 (2 ^ 32) ∧
      shrSatUK UKind.u8 5 (2 ^ 32) = 0) ∧
    shrSatSK SKind.i8 (-1) 7 = 0 ∧
    shrAssignSatSK SKind.i8 (-1) 7 = sar (-1) (castU32 7) :=
  ⟨(c10_assign_agreement Op.add 8 0 0 0 0 UKind.u8 SKind.i8 5 (2 ^ 32)
      (-1)).2.2.1 (by decide) (by decide),
   ((c10_assign_agreement Op.add 8 0 0 0 0 UKind.u8 SKind.i8 0 7
      (-1)).2.2.2.2.2.2.1 (by decide) (by decide)).1,
   ((c10_assign_agreement Op.add 8 0 0 0 0 UKind.u8 SKind.i8 0 7
      (-1)).2.2.2.2.2.2.1 (by decide) (by decide)).2⟩

end Overflower




